import Mathlib

/-!
Verification development for the cohort (class) generation and
leadership-assignment subsystem of the SVWS MockFactory repository
(`populate_classes.py`).

The Python source is embedded shallowly:

* `generate_class_suffix` — the base-26 naming scheme (source lines 78-100);
* the planner arithmetic of `populate_classes` (source lines 180-230),
  with Python float division modelled by exact rational arithmetic;
* the record-building portion of `populate_classes` (source lines 241-446),
  as a pure function from the inputs (configuration, master data, structure
  template, grade-level directory) to the ordered list of creation payloads,
  with the per-payload HTTP POST outcome supplied by an oracle;
* `assign_class_leaders` (source lines 481-624), with `random.sample`
  modelled by a selection oracle constrained to return the right number of
  elements drawn from distinct positions of the pool.
-/

namespace MockFactory

/-! ## Naming scheme: `generate_class_suffix` (source lines 78-100) -/

/-- `generate_class_suffix` from `populate_classes.py` lines 93-100:
`index < 26` yields the single letter `chr(ord('a') + index)`; otherwise the
two letters `chr(ord('a') + index // 26 - 1)` and `chr(ord('a') + index % 26)`. -/
def generate_class_suffix (index : Nat) : String :=
  if index < 26 then
    String.mk [Char.ofNat (97 + index)]
  else
    String.mk [Char.ofNat (97 + index / 26 - 1), Char.ofNat (97 + index % 26)]

/-- Decoder used to prove injectivity of the suffix scheme on `[0, 676)`. -/
def suffix_decode (s : String) : Nat :=
  match s.data with
  | [c] => c.toNat - 97
  | [c1, c2] => 26 * (c1.toNat - 96) + (c2.toNat - 97)
  | _ => 0

theorem char_toNat_ofNat_letter : ∀ k, k < 30 → (Char.ofNat (97 + k)).toNat = 97 + k := by
  decide

theorem suffix_decode_suffix (i : Nat) (h : i < 676) :
    suffix_decode (generate_class_suffix i) = i := by
  by_cases h26 : i < 26
  · have h1 := char_toNat_ofNat_letter i (by omega)
    simp only [generate_class_suffix, if_pos h26, suffix_decode, h1]
    omega
  · have e : 97 + i / 26 - 1 = 97 + (i / 26 - 1) := by omega
    have h1 := char_toNat_ofNat_letter (i / 26 - 1) (by omega)
    have h2 := char_toNat_ofNat_letter (i % 26) (by omega)
    simp only [generate_class_suffix, if_neg h26, e, suffix_decode, h1, h2]
    omega

/-! ## Planner arithmetic (source lines 180-230)

Python float arithmetic is modelled by exact rational arithmetic (the spec
describes `studentsPerGrade` as real-valued).  `int(x)` truncates toward
zero; `//` is floor division.  `classes_per_student` is the hard-coded
constant of source line 182; the arithmetic of lines 220-227 refers to it
through the parameter `t`. -/

/-- Python `int(q)`: truncation toward zero. -/
def pytrunc (q : ℚ) : ℤ :=
  if q < 0 then ⌈q⌉ else ⌊q⌋

/-- Source line 182: `classes_per_student = 25`. -/
def classes_per_student : Nat := 25

/-- Source line 215: `students_per_grade = anzahl_schueler / num_jahrgaenge`. -/
def students_per_grade (anzahl num : Nat) : ℚ :=
  (anzahl : ℚ) / (num : ℚ)

/-- Source line 222:
`classes_per_jahrgang = max(1, int(students_per_grade // classes_per_student))`. -/
def classes_per_jahrgang (anzahl num t : Nat) : Nat :=
  max 1 (Int.toNat ⌊students_per_grade anzahl num / (t : ℚ)⌋)

/-- Source line 226:
`remainder_students = int(anzahl_schueler - (students_per_grade * num_jahrgaenge))`. -/
def remainder_students (anzahl num : Nat) : ℤ :=
  pytrunc ((anzahl : ℚ) - students_per_grade anzahl num * (num : ℚ))

/-- Source line 227: `remainder = max(0, remainder_students // classes_per_student)`. -/
def remainder_classes (anzahl num t : Nat) : Nat :=
  Int.toNat (max 0 ((remainder_students anzahl num).fdiv (t : ℤ)))

/-- Source lines 269-271: the number of classes a regular grade level at
position `idx` receives. -/
def num_classes_this_jg (cpj rem idx : Nat) : Nat :=
  cpj + (if idx < rem then 1 else 0)

/-- Total planned regular cohorts: the sum of the per-grade counts. -/
def total_regular_classes (cpj rem n : Nat) : Nat :=
  ((List.range n).map (num_classes_this_jg cpj rem)).sum

theorem students_per_grade_mul_cancel (anzahl num : Nat) (h : num ≠ 0) :
    students_per_grade anzahl num * (num : ℚ) = (anzahl : ℚ) := by
  have : (num : ℚ) ≠ 0 := by exact_mod_cast h
  simp [students_per_grade, div_mul_cancel₀, this]

theorem remainder_students_eq_zero (anzahl num : Nat) (h : num ≠ 0) :
    remainder_students anzahl num = 0 := by
  simp [remainder_students, students_per_grade_mul_cancel anzahl num h, pytrunc]

theorem remainder_classes_eq_zero (anzahl num t : Nat) (h : num ≠ 0) :
    remainder_classes anzahl num t = 0 := by
  simp [remainder_classes, remainder_students_eq_zero anzahl num h, Int.fdiv]

theorem sum_range_map_ite (m rem : Nat) :
    ((List.range m).map (fun idx => if idx < rem then 1 else 0)).sum = min m rem := by
  induction m with
  | zero => simp
  | succ k ih =>
    rw [List.range_succ, List.map_append, List.sum_append, ih]
    by_cases h : k < rem
    · simp [h]; omega
    · simp [h]; omega

theorem sum_range_map_add_const (m cpj : Nat) (f : Nat → Nat) :
    ((List.range m).map (fun idx => cpj + f idx)).sum
      = m * cpj + ((List.range m).map f).sum := by
  induction m with
  | zero => simp
  | succ k ih =>
    rw [List.range_succ, List.map_append, List.sum_append, ih, List.map_append,
      List.sum_append]
    simp
    ring

theorem total_regular_eq (cpj rem n : Nat) (h : rem ≤ n) :
    total_regular_classes cpj rem n = cpj * n + rem := by
  have hmap : (List.range n).map (num_classes_this_jg cpj rem)
      = (List.range n).map (fun idx => cpj + (if idx < rem then 1 else 0)) := by
    apply List.map_congr_left
    intro a _
    rfl
  show ((List.range n).map (num_classes_this_jg cpj rem)).sum = cpj * n + rem
  rw [hmap, sum_range_map_add_const, sum_range_map_ite]
  have hmin : min n rem = rem := by omega
  rw [hmin]
  ring

/-! ## Data model (source lines 22-117 and the shapes consumed there)

`JgTemplate` is one entry of a group's `jahrgaenge` list in
`klassenstruktur.json`; optional JSON fields are modelled by their Python
defaults (`jg.get('prefix', '')` gives the empty string).  The Python name
`prefix` is rendered `praefix` because Lean reserves that identifier. -/

structure JgTemplate where
  kuerzel : String
  beschreibung : String
  praefix : String
deriving DecidableEq, Repr

structure Group where
  name : String
  schulformen : List String
  jahrgaenge : List JgTemplate
deriving DecidableEq, Repr

/-- One entry of the external grade-level directory (`/jahrgaenge`). -/
structure JgEntry where
  id : Nat
  kuerzel : String
deriving DecidableEq, Repr

/-- The configuration keys relevant to class generation.  `anzahlschueler`
is read at source line 181 (default 200 already applied); `targetClassSize`
records a class-size key a configuration may carry — the source never reads
such a key. -/
structure Config where
  anzahlschueler : Nat
  targetClassSize : Option Nat
deriving DecidableEq, Repr

/-- School master data (`/schule/stammdaten`).  Python truthiness of the
`.get(...)` results is modelled by `""` for a missing/empty `schulform` and
`0` for a missing `idSchuljahresabschnitt`. -/
structure Stammdaten where
  schulform : String
  idSchuljahresabschnitt : Nat
deriving DecidableEq, Repr

/-- `find_schulform_group` (source lines 61-75): first group whose
`schulformen` contains the code. -/
def find_schulform_group (schulform : String) (struktur : List Group) : Option Group :=
  struktur.find? (fun group => schulform ∈ group.schulformen)

/-- `map_jahrgang_id` (source lines 103-117): id of the first directory entry
with the requested `kuerzel`, or `0` if absent. -/
def map_jahrgang_id (kuerzel : String) (jahrgaenge : List JgEntry) : Nat :=
  match jahrgaenge.find? (fun jg => jg.kuerzel == kuerzel) with
  | some jg => jg.id
  | none => 0

/-! ## Cohort record construction (source lines 241-446) -/

/-- The organizational attribute block of a creation payload
(source lines 289-314 and 371-395). -/
inductive OrgAttrs where
  | berufsbildend (idBerufsbildendOrganisationsform idKlassenart idSchulgliederung : Nat)
  | allgemeinbildend (idAllgemeinbildendOrganisationsform idKlassenart : Nat)
      (idSchulgliederung : Option Nat)
deriving DecidableEq, Repr

/-- One `/klassen/create` payload. `parallelitaet` is the single uppercase
letter the source puts in that field. -/
structure Payload where
  idSchuljahresabschnitt : Nat
  kuerzel : String
  idJahrgang : Nat
  parallelitaet : Char
  sortierung : Nat
  beschreibung : String
  attrs : OrgAttrs
deriving DecidableEq, Repr

/-- Source line 249: Schulformen whose `idSchulgliederung` field is omitted. -/
def omit_schulgliederung (schulform : String) : Bool :=
  schulform ∈ ["H", "SK", "R", "SR", "S"]

/-- The attribute block chosen by the `if schulform in ['BK', 'SB']` branches
(source lines 289-314 / 371-395), with the fixed ids of the source. -/
def mkAttrs (schulform : String) : OrgAttrs :=
  if schulform ∈ ["BK", "SB"] then
    .berufsbildend 1005000 7001 1001000
  else
    .allgemeinbildend 3001001 7002
      (if omit_schulgliederung schulform then none else some 0)

/-- One regular-phase payload (source lines 276-314): suffix from the class
index, `parallelitaet` the uppercased first suffix letter, `kuerzel` with
the optional prefix, `beschreibung = "Klasse " + kuerzel`. -/
def regularPayload (schulform : String) (idAb : Nat) (jg : JgTemplate)
    (jgId class_idx sortierung : Nat) : Payload :=
  let suffix := generate_class_suffix class_idx
  let kuerzel :=
    if jg.praefix ≠ "" then jg.praefix ++ jg.kuerzel ++ suffix
    else jg.kuerzel ++ suffix
  { idSchuljahresabschnitt := idAb
    kuerzel := kuerzel
    idJahrgang := jgId
    parallelitaet := suffix.front.toUpper
    sortierung := sortierung
    beschreibung := "Klasse " ++ kuerzel
    attrs := mkAttrs schulform }

/-- The Oberstufe payload (source lines 363-395): `kuerzel` is the bare
grade-level code, `parallelitaet` the fixed `'A'`,
`beschreibung = "Jahrgang " + kuerzel`. -/
def capstonePayload (schulform : String) (idAb : Nat) (jg : JgTemplate)
    (jgId sortierung : Nat) : Payload :=
  { idSchuljahresabschnitt := idAb
    kuerzel := jg.kuerzel
    idJahrgang := jgId
    parallelitaet := 'A'
    sortierung := sortierung
    beschreibung := "Jahrgang " ++ jg.kuerzel
    attrs := mkAttrs schulform }

/-- The inner loop of the regular phase (source lines 276-316): one payload
per class index, the sort counter advancing with each payload. -/
def jgPayloads (schulform : String) (idAb : Nat) (jg : JgTemplate)
    (jgId n sortStart : Nat) : List Payload :=
  (List.range n).map (fun i => regularPayload schulform idAb jg jgId i (sortStart + i))

/-- The regular-phase loop (source lines 257-350): enumerate the regular
grade levels; an unresolved grade level (directory id 0) is skipped but the
enumeration index still advances; the first `rem` resolved-or-not positions
get one extra class.  Returns the payloads and the final sort counter. -/
def buildRegular (schulform : String) (idAb : Nat) (dir : List JgEntry)
    (cpj rem : Nat) : List JgTemplate → Nat → Nat → List Payload × Nat
  | [], _, sort => ([], sort)
  | jg :: rest, idx, sort =>
    let jgId := map_jahrgang_id jg.kuerzel dir
    if jgId = 0 then
      buildRegular schulform idAb dir cpj rem rest (idx + 1) sort
    else
      let n := num_classes_this_jg cpj rem idx
      let r := buildRegular schulform idAb dir cpj rem rest (idx + 1) (sort + n)
      (jgPayloads schulform idAb jg jgId n sort ++ r.1, r.2)

/-- The Oberstufe loop (source lines 353-431): one payload per resolved
capstone grade level, sharing the same sort counter. -/
def buildOberstufe (schulform : String) (idAb : Nat) (dir : List JgEntry) :
    List JgTemplate → Nat → List Payload × Nat
  | [], sort => ([], sort)
  | jg :: rest, sort =>
    let jgId := map_jahrgang_id jg.kuerzel dir
    if jgId = 0 then
      buildOberstufe schulform idAb dir rest sort
    else
      let r := buildOberstufe schulform idAb dir rest (sort + 1)
      (capstonePayload schulform idAb jg jgId sort :: r.1, r.2)

/-- Source line 197: Schulformen with an Oberstufe phase. -/
def is_oberstufe_schulform (schulform : String) : Bool :=
  schulform ∈ ["GY", "GE", "HI"]

/-- Source line 198: the capstone grade-level codes. -/
def oberstufe_jahrgaenge : List String := ["EF", "Q1", "Q2"]

/-- The classification of source lines 204-208: a template entry goes to the
Oberstufe list only when its code is EF/Q1/Q2 *and* the Schulform has an
Oberstufe. -/
def isOberstufeJg (schulform : String) (jg : JgTemplate) : Bool :=
  decide (jg.kuerzel ∈ oberstufe_jahrgaenge) && is_oberstufe_schulform schulform

/-- Outcome of `populate_classes` before any HTTP POST is issued. -/
inductive RunOutcome where
  | err
  | skipBkSb
  | run (payloads : List Payload)
deriving DecidableEq, Repr

/-- The payload list of a run that passed all guards (source lines 189-431):
regular/Oberstufe split, planner arithmetic, and both payload loops threaded
over the run-global sort counter starting at 1. -/
def run_branch (cfg : Config) (stamm : Stammdaten) (group : Group)
    (dir : List JgEntry) : List Payload :=
  let template_jahrgaenge := group.jahrgaenge
  let part := template_jahrgaenge.partition (isOberstufeJg stamm.schulform)
  let oberstufe_jg := part.1
  let regular_jahrgaenge := part.2
  let num_jahrgaenge := template_jahrgaenge.length
  let anzahl_schueler := cfg.anzahlschueler
  let num_regular := regular_jahrgaenge.length
  let cpj :=
    if num_regular > 0 then
      classes_per_jahrgang anzahl_schueler num_jahrgaenge classes_per_student
    else 0
  let rem :=
    if num_regular > 0 then
      remainder_classes anzahl_schueler num_jahrgaenge classes_per_student
    else 0
  let reg :=
    buildRegular stamm.schulform stamm.idSchuljahresabschnitt dir cpj rem
      regular_jahrgaenge 0 1
  let ob :=
    buildOberstufe stamm.schulform stamm.idSchuljahresabschnitt dir
      oberstufe_jg reg.2
  reg.1 ++ ob.1

/-- The record-generation part of `populate_classes` (source lines 120-431):
guards, BK/SB skip, group lookup, then `run_branch`.  The HTTP POST outcomes
do not influence which payloads are built, so they are applied separately
(`postAll`). -/
def populate_classes_payloads (cfg : Config) (stamm : Stammdaten)
    (struktur : List Group) (dir : List JgEntry) : RunOutcome :=
  if stamm.schulform = "" then .err
  else if stamm.idSchuljahresabschnitt = 0 then .err
  else if stamm.schulform ∈ ["BK", "SB"] then .skipBkSb
  else
    match find_schulform_group stamm.schulform struktur with
    | none => .err
    | some group =>
      if group.jahrgaenge.length = 0 then .err
      else .run (run_branch cfg stamm group dir)

/-- Payloads of a run (empty for error and skip outcomes). -/
def run_payloads (cfg : Config) (stamm : Stammdaten) (struktur : List Group)
    (dir : List JgEntry) : List Payload :=
  match populate_classes_payloads cfg stamm struktur dir with
  | .run ps => ps
  | _ => []

/-- Cache entry written for each successfully created class that returned an
id (source lines 330-334). -/
structure CacheEntry where
  id : Nat
  kuerzel : String
deriving DecidableEq, Repr

/-- Result of one POST to `/klassen/create`: `none` = failure; `some none` =
success without a parsable id; `some (some i)` = success returning id `i`. -/
def PostResult := Option (Option Nat)

/-- The per-payload POST loop bodies (source lines 318-348 / 399-429):
count successes and failures and collect cache entries in creation order. -/
def postAll (post : Payload → Option (Option Nat)) :
    List Payload → Nat × Nat × List CacheEntry
  | [] => (0, 0, [])
  | p :: rest =>
    let r := postAll post rest
    match post p with
    | some (some i) => (r.1 + 1, r.2.1, ⟨i, p.kuerzel⟩ :: r.2.2)
    | some none => (r.1 + 1, r.2.1, r.2.2)
    | none => (r.1, r.2.1 + 1, r.2.2)

/-- The `(created, failed)` return value of `populate_classes`
(source lines 141-161, 167, 177, 194 and 446). -/
def populate_classes (cfg : Config) (stamm : Stammdaten) (struktur : List Group)
    (dir : List JgEntry) (post : Payload → Option (Option Nat)) : Nat × Nat :=
  match populate_classes_payloads cfg stamm struktur dir with
  | .err => (0, 1)
  | .skipBkSb => (0, 0)
  | .run ps => ((postAll post ps).1, (postAll post ps).2.1)

/-! ## Bridge lemmas: rational planner arithmetic as natural division -/

theorem classes_per_jahrgang_eq_natDiv (S N t : Nat) :
    classes_per_jahrgang S N t = max 1 (S / (N * t)) := by
  unfold classes_per_jahrgang students_per_grade
  rw [div_div, ← Nat.cast_mul, Rat.floor_natCast_div_natCast, ← Int.natCast_div,
    Int.toNat_natCast]

theorem str_append_left_cancel {base s t : String} (h : base ++ s = base ++ t) :
    s = t := by
  apply String.ext
  have hd := congrArg String.data h
  simpa [String.data_append] using hd

/-! ## Claims about the naming scheme -/

/-- C2. The suffix function returns the single letter `chr(97 + index)` for
`index < 26` (0 ↦ "a", 25 ↦ "z"), and for `index ≥ 26` the letter
`chr(97 + index/26 - 1)` followed by `chr(97 + index % 26)`; in particular
the seven listed values hold. -/
theorem suffix_scheme_values :
    generate_class_suffix 0 = "a" ∧ generate_class_suffix 25 = "z"
    ∧ generate_class_suffix 26 = "aa" ∧ generate_class_suffix 51 = "az"
    ∧ generate_class_suffix 52 = "ba" ∧ generate_class_suffix 77 = "bz"
    ∧ generate_class_suffix 78 = "ca"
    ∧ (∀ i : Nat, generate_class_suffix (i % 26) = String.mk [Char.ofNat (97 + i % 26)])
    ∧ (∀ i : Nat, generate_class_suffix (26 + i)
        = String.mk [Char.ofNat (97 + (26 + i) / 26 - 1), Char.ofNat (97 + (26 + i) % 26)]) := by
  refine ⟨by decide, by decide, by decide, by decide, by decide, by decide, by decide, ?_, ?_⟩
  · intro i
    have h : i % 26 < 26 := Nat.mod_lt i (by decide)
    simp [generate_class_suffix, h]
  · intro i
    have h : ¬ (26 + i < 26) := by omega
    simp [generate_class_suffix, h]

/-- C9. The suffix function is injective on `[0, 676)`, so cohort names
formed by appending the suffix to a common grade-level code are
collision-free within a grade level. -/
theorem suffix_injective_on_domain (i j : Nat) (hi : i < 676) (hj : j < 676)
    (hij : i ≠ j) :
    generate_class_suffix i ≠ generate_class_suffix j
    ∧ ∀ base : String,
        base ++ generate_class_suffix i ≠ base ++ generate_class_suffix j := by
  have hne : generate_class_suffix i ≠ generate_class_suffix j := by
    intro he
    apply hij
    rw [← suffix_decode_suffix i hi, ← suffix_decode_suffix j hj, he]
  exact ⟨hne, fun base hb => hne (str_append_left_cancel hb)⟩

/-- Witness for C9 at `i = 3`, `j = 4`. -/
theorem suffix_injective_on_domain_witness :
    (3 < 676 ∧ 4 < 676 ∧ (3 : Nat) ≠ 4)
    ∧ (generate_class_suffix 3 ≠ generate_class_suffix 4
       ∧ ∀ base : String,
          base ++ generate_class_suffix 3 ≠ base ++ generate_class_suffix 4) :=
  ⟨⟨by decide, by decide, by decide⟩,
    suffix_injective_on_domain 3 4 (by decide) (by decide) (by decide)⟩

/-! ## Claim about the planner arithmetic -/

/-- C1. For `totalStudents > 0`, `targetClassSize > 0` and a template with
`N` grade levels of which `n > 0` are regular: the planner's
`classes_per_jahrgang` equals `max(1, ⌊(S/N)/t⌋)` and its `remainder` equals
`max(0, ⌊(S - (S/N)·N)/t⌋)` (exact arithmetic, hence `0`); the planned
regular-cohort total is `classesPerGrade · n + remainder`; position `idx`
receives `classesPerGrade + 1` exactly when `idx < remainder`; and
`remainder < n`.  The class-size divisor `t` is the variable
`classes_per_student` of source line 182, whose value is 25. -/
theorem planner_distribution (S N n t : Nat) (hS : 0 < S) (ht : 0 < t)
    (hn : 0 < n) (hnN : n ≤ N) :
    classes_per_jahrgang S N t
        = max 1 (Int.toNat ⌊students_per_grade S N / (t : ℚ)⌋)
    ∧ remainder_classes S N t
        = Int.toNat (max 0 ⌊((S : ℚ) - students_per_grade S N * (N : ℚ)) / (t : ℚ)⌋)
    ∧ total_regular_classes (classes_per_jahrgang S N t) (remainder_classes S N t) n
        = classes_per_jahrgang S N t * n + remainder_classes S N t
    ∧ (∀ idx < n,
        num_classes_this_jg (classes_per_jahrgang S N t) (remainder_classes S N t) idx
          = if idx < remainder_classes S N t
            then classes_per_jahrgang S N t + 1
            else classes_per_jahrgang S N t)
    ∧ remainder_classes S N t < n := by
  have hN : N ≠ 0 := by omega
  have hrem : remainder_classes S N t = 0 := remainder_classes_eq_zero S N t hN
  refine ⟨rfl, ?_, ?_, ?_, ?_⟩
  · rw [hrem, students_per_grade_mul_cancel S N hN]
    simp
  · exact total_regular_eq _ _ _ (by omega)
  · intro idx _
    rw [num_classes_this_jg]
    by_cases h : idx < remainder_classes S N t
    · simp [h]
    · simp [h]
  · omega

/-- Witness for C1 at `S = 200`, `N = n = 5`, `t = 25` (the end-to-end
scenario of the spec). -/
theorem planner_distribution_witness :
    (0 < 200 ∧ 0 < 25 ∧ 0 < 5 ∧ 5 ≤ 5)
    ∧ (classes_per_jahrgang 200 5 25
          = max 1 (Int.toNat ⌊students_per_grade 200 5 / (25 : ℚ)⌋)
       ∧ remainder_classes 200 5 25
          = Int.toNat (max 0 ⌊((200 : ℚ) - students_per_grade 200 5 * (5 : ℚ)) / (25 : ℚ)⌋)
       ∧ total_regular_classes (classes_per_jahrgang 200 5 25) (remainder_classes 200 5 25) 5
          = classes_per_jahrgang 200 5 25 * 5 + remainder_classes 200 5 25
       ∧ (∀ idx < 5,
            num_classes_this_jg (classes_per_jahrgang 200 5 25) (remainder_classes 200 5 25) idx
              = if idx < remainder_classes 200 5 25
                then classes_per_jahrgang 200 5 25 + 1
                else classes_per_jahrgang 200 5 25)
       ∧ remainder_classes 200 5 25 < 5) :=
  ⟨⟨by decide, by decide, by decide, by decide⟩,
    planner_distribution 200 5 5 25 (by decide) (by decide) (by decide) (by decide)⟩

/-! ## Structure of the built payload lists -/

theorem range'_append_one (s m n : Nat) :
    List.range' s m ++ List.range' (s + m) n = List.range' s (m + n) := by
  have h := List.range'_append s m n 1
  simp only [one_mul] at h
  rw [Nat.add_comm n m] at h
  exact h

theorem jgPayloads_length (sf : String) (idAb : Nat) (jg : JgTemplate)
    (jgId n s : Nat) : (jgPayloads sf idAb jg jgId n s).length = n := by
  simp [jgPayloads]

theorem jgPayloads_sortierung (sf : String) (idAb : Nat) (jg : JgTemplate)
    (jgId n s : Nat) :
    (jgPayloads sf idAb jg jgId n s).map (fun p => p.sortierung)
      = List.range' s n := by
  unfold jgPayloads
  rw [List.map_map, List.range'_eq_map_range]
  rfl

theorem buildRegular_spec (sf : String) (idAb : Nat) (dir : List JgEntry)
    (cpj rem : Nat) (jgs : List JgTemplate) : ∀ (idx sort : Nat),
    ((buildRegular sf idAb dir cpj rem jgs idx sort).1.map (fun p => p.sortierung)
      = List.range' sort (buildRegular sf idAb dir cpj rem jgs idx sort).1.length)
    ∧ (buildRegular sf idAb dir cpj rem jgs idx sort).2
      = sort + (buildRegular sf idAb dir cpj rem jgs idx sort).1.length := by
  induction jgs with
  | nil => intro idx sort; simp [buildRegular]
  | cons jg rest ih =>
    intro idx sort
    by_cases h : map_jahrgang_id jg.kuerzel dir = 0
    · simpa [buildRegular, h] using ih (idx + 1) sort
    · obtain ⟨ih1, ih2⟩ := ih (idx + 1) (sort + num_classes_this_jg cpj rem idx)
      simp only [buildRegular, h, if_neg, ite_false]
      constructor
      · rw [List.map_append, jgPayloads_sortierung, ih1, List.length_append,
          jgPayloads_length, range'_append_one]
      · rw [ih2, List.length_append, jgPayloads_length]
        omega

theorem buildOberstufe_spec (sf : String) (idAb : Nat) (dir : List JgEntry)
    (jgs : List JgTemplate) : ∀ (sort : Nat),
    ((buildOberstufe sf idAb dir jgs sort).1.map (fun p => p.sortierung)
      = List.range' sort (buildOberstufe sf idAb dir jgs sort).1.length)
    ∧ (buildOberstufe sf idAb dir jgs sort).2
      = sort + (buildOberstufe sf idAb dir jgs sort).1.length := by
  induction jgs with
  | nil => intro sort; simp [buildOberstufe]
  | cons jg rest ih =>
    intro sort
    by_cases h : map_jahrgang_id jg.kuerzel dir = 0
    · simpa [buildOberstufe, h] using ih sort
    · obtain ⟨ih1, ih2⟩ := ih (sort + 1)
      simp only [buildOberstufe, h, if_neg, ite_false]
      constructor
      · rw [List.map_cons, ih1, List.length_cons]
        show sort :: List.range' (sort + 1) _ = _
        rw [List.range'_succ]
      · rw [ih2, List.length_cons]
        omega

theorem concat_consecutive (A B : List Payload) (s : Nat)
    (hA : A.map (fun p => p.sortierung) = List.range' s A.length)
    (hB : B.map (fun p => p.sortierung) = List.range' (s + A.length) B.length) :
    (A ++ B).map (fun p => p.sortierung) = List.range' s (A ++ B).length := by
  rw [List.map_append, hA, hB, List.length_append, range'_append_one]

theorem run_branch_sortierung (cfg : Config) (stamm : Stammdaten)
    (group : Group) (dir : List JgEntry) :
    (run_branch cfg stamm group dir).map (fun p => p.sortierung)
      = List.range' 1 (run_branch cfg stamm group dir).length := by
  have key : ∀ (sf : String) (idAb : Nat) (d : List JgEntry) (cpj rem : Nat)
      (regs obers : List JgTemplate),
      ((buildRegular sf idAb d cpj rem regs 0 1).1
          ++ (buildOberstufe sf idAb d obers
                (buildRegular sf idAb d cpj rem regs 0 1).2).1).map
          (fun p => p.sortierung)
        = List.range' 1 ((buildRegular sf idAb d cpj rem regs 0 1).1
            ++ (buildOberstufe sf idAb d obers
                  (buildRegular sf idAb d cpj rem regs 0 1).2).1).length := by
    intro sf idAb d cpj rem regs obers
    obtain ⟨r1, r2⟩ := buildRegular_spec sf idAb d cpj rem regs 0 1
    generalize hOB : (buildOberstufe sf idAb d obers
      (buildRegular sf idAb d cpj rem regs 0 1).2).1 = OB
    obtain ⟨o1, _⟩ := buildOberstufe_spec sf idAb d obers
      (buildRegular sf idAb d cpj rem regs 0 1).2
    rw [hOB] at o1
    rw [r2] at o1
    exact concat_consecutive _ _ _ r1 o1
  exact key _ _ _ _ _ _ _

/-- Inversion: a run that produced payloads passed every guard, found a
group, and built exactly `run_branch`'s list. -/
theorem populate_run_inversion (cfg : Config) (stamm : Stammdaten)
    (struktur : List Group) (dir : List JgEntry) (ps : List Payload)
    (h : populate_classes_payloads cfg stamm struktur dir = .run ps) :
    ∃ group, find_schulform_group stamm.schulform struktur = some group
      ∧ stamm.schulform ∉ (["BK", "SB"] : List String)
      ∧ ps = run_branch cfg stamm group dir := by
  unfold populate_classes_payloads at h
  split_ifs at h with h1 h2 h3
  cases hg : find_schulform_group stamm.schulform struktur with
  | none => rw [hg] at h; exact absurd h (by simp)
  | some group =>
    rw [hg] at h
    dsimp only at h
    split_ifs at h with h4
    refine ⟨group, rfl, h3, ?_⟩
    injection h with h5
    exact h5.symm

/-! ## Attribute lemmas -/

/-- Whether an attribute block is the vocational (berufsbildend) variant. -/
def isBerufsbildendAttr : OrgAttrs → Bool
  | .berufsbildend _ _ _ => true
  | .allgemeinbildend _ _ _ => false

theorem jgPayloads_attrs (sf : String) (idAb : Nat) (jg : JgTemplate)
    (jgId n s : Nat) : ∀ p ∈ jgPayloads sf idAb jg jgId n s, p.attrs = mkAttrs sf := by
  intro p hp
  simp only [jgPayloads, List.mem_map] at hp
  obtain ⟨i, _, rfl⟩ := hp
  rfl

theorem buildRegular_attrs (sf : String) (idAb : Nat) (d : List JgEntry)
    (cpj rem : Nat) (jgs : List JgTemplate) : ∀ (idx sort : Nat),
    ∀ p ∈ (buildRegular sf idAb d cpj rem jgs idx sort).1, p.attrs = mkAttrs sf := by
  induction jgs with
  | nil => intro idx sort p hp; simp [buildRegular] at hp
  | cons jg rest ih =>
    intro idx sort p hp
    by_cases h : map_jahrgang_id jg.kuerzel d = 0
    · simp only [buildRegular, h, ite_true] at hp
      exact ih (idx + 1) sort p hp
    · simp only [buildRegular, h, ite_false, List.mem_append] at hp
      rcases hp with hp | hp
      · exact jgPayloads_attrs sf idAb jg _ _ _ p hp
      · exact ih (idx + 1) _ p hp

theorem buildOberstufe_attrs (sf : String) (idAb : Nat) (d : List JgEntry)
    (jgs : List JgTemplate) : ∀ (sort : Nat),
    ∀ p ∈ (buildOberstufe sf idAb d jgs sort).1, p.attrs = mkAttrs sf := by
  induction jgs with
  | nil => intro sort p hp; simp [buildOberstufe] at hp
  | cons jg rest ih =>
    intro sort p hp
    by_cases h : map_jahrgang_id jg.kuerzel d = 0
    · simp only [buildOberstufe, h, ite_true] at hp
      exact ih sort p hp
    · simp only [buildOberstufe, h, ite_false, List.mem_cons] at hp
      rcases hp with rfl | hp
      · rfl
      · exact ih (sort + 1) p hp

theorem run_branch_attrs (cfg : Config) (stamm : Stammdaten) (group : Group)
    (dir : List JgEntry) :
    ∀ p ∈ run_branch cfg stamm group dir, p.attrs = mkAttrs stamm.schulform := by
  have key : ∀ (sf : String) (idAb : Nat) (d : List JgEntry) (cpj rem : Nat)
      (regs obers : List JgTemplate) (p : Payload),
      p ∈ (buildRegular sf idAb d cpj rem regs 0 1).1
          ++ (buildOberstufe sf idAb d obers
                (buildRegular sf idAb d cpj rem regs 0 1).2).1 →
      p.attrs = mkAttrs sf := by
    intro sf idAb d cpj rem regs obers p hp
    rcases List.mem_append.mp hp with hp | hp
    · exact buildRegular_attrs sf idAb d cpj rem regs 0 1 p hp
    · exact buildOberstufe_attrs sf idAb d obers _ p hp
  exact fun p hp => key _ _ _ _ _ _ _ p hp

/-! ## Claims C6, C3, C7, C8 -/

/-- C6. In every run that produces payloads, the `sortierung` values form,
in creation order, exactly the sequence `1, 2, …` (a single run-global
counter shared across the regular and Oberstufe phases); hence they are
strictly increasing and unique. -/
theorem sortOrder_monotonic (cfg : Config) (stamm : Stammdaten)
    (struktur : List Group) (dir : List JgEntry) (ps : List Payload)
    (h : populate_classes_payloads cfg stamm struktur dir = .run ps) :
    ps.map (fun p => p.sortierung) = List.range' 1 ps.length
    ∧ List.Pairwise (· < ·) (ps.map (fun p => p.sortierung))
    ∧ (ps.map (fun p => p.sortierung)).Nodup := by
  obtain ⟨group, _, _, rfl⟩ := populate_run_inversion cfg stamm struktur dir ps h
  refine ⟨run_branch_sortierung cfg stamm group dir, ?_, ?_⟩
  · rw [run_branch_sortierung]
    exact List.pairwise_lt_range' _ _
  · rw [run_branch_sortierung]
    exact List.nodup_range' _ _

/-- Witness for C6: a Gymnasium run with two capstone grade levels. -/
theorem sortOrder_monotonic_witness :
    (populate_classes_payloads ⟨100, none⟩ ⟨"GY", 1⟩
        [⟨"Gymnasium", ["GY"], [⟨"EF", "E", ""⟩, ⟨"Q1", "Q", ""⟩]⟩]
        [⟨7, "EF"⟩, ⟨8, "Q1"⟩]
      = .run (run_branch ⟨100, none⟩ ⟨"GY", 1⟩
          ⟨"Gymnasium", ["GY"], [⟨"EF", "E", ""⟩, ⟨"Q1", "Q", ""⟩]⟩
          [⟨7, "EF"⟩, ⟨8, "Q1"⟩]))
    ∧ ((run_branch ⟨100, none⟩ ⟨"GY", 1⟩
          ⟨"Gymnasium", ["GY"], [⟨"EF", "E", ""⟩, ⟨"Q1", "Q", ""⟩]⟩
          [⟨7, "EF"⟩, ⟨8, "Q1"⟩]).map (fun p => p.sortierung)
        = List.range' 1 (run_branch ⟨100, none⟩ ⟨"GY", 1⟩
            ⟨"Gymnasium", ["GY"], [⟨"EF", "E", ""⟩, ⟨"Q1", "Q", ""⟩]⟩
            [⟨7, "EF"⟩, ⟨8, "Q1"⟩]).length
       ∧ List.Pairwise (· < ·) ((run_branch ⟨100, none⟩ ⟨"GY", 1⟩
            ⟨"Gymnasium", ["GY"], [⟨"EF", "E", ""⟩, ⟨"Q1", "Q", ""⟩]⟩
            [⟨7, "EF"⟩, ⟨8, "Q1"⟩]).map (fun p => p.sortierung))
       ∧ ((run_branch ⟨100, none⟩ ⟨"GY", 1⟩
            ⟨"Gymnasium", ["GY"], [⟨"EF", "E", ""⟩, ⟨"Q1", "Q", ""⟩]⟩
            [⟨7, "EF"⟩, ⟨8, "Q1"⟩]).map (fun p => p.sortierung)).Nodup) :=
  ⟨by decide,
    sortOrder_monotonic ⟨100, none⟩ ⟨"GY", 1⟩
      [⟨"Gymnasium", ["GY"], [⟨"EF", "E", ""⟩, ⟨"Q1", "Q", ""⟩]⟩]
      [⟨7, "EF"⟩, ⟨8, "Q1"⟩] _ (by decide)⟩

/-- C3 (amended). Each capstone grade level that resolves in the directory
yields exactly one cohort; its code is the bare grade-level code — any
configured prefix is ignored by the Oberstufe branch — and its parallel
marker is the fixed `'A'`.  The construction takes no student count at all,
so the result is independent of `totalStudents`. -/
theorem capstone_single_cohort (sf : String) (idAb : Nat) (d : List JgEntry)
    (jgs : List JgTemplate) (sort : Nat) :
    ((buildOberstufe sf idAb d jgs sort).1.length
        = (jgs.filter (fun jg => map_jahrgang_id jg.kuerzel d != 0)).length)
    ∧ ((buildOberstufe sf idAb d jgs sort).1.map (fun p => p.kuerzel)
        = (jgs.filter (fun jg => map_jahrgang_id jg.kuerzel d != 0)).map
            (fun jg => jg.kuerzel))
    ∧ ((buildOberstufe sf idAb d jgs sort).1.map (fun p => p.parallelitaet)
        = List.replicate (buildOberstufe sf idAb d jgs sort).1.length 'A') := by
  induction jgs generalizing sort with
  | nil => simp [buildOberstufe]
  | cons jg rest ih =>
    by_cases h : map_jahrgang_id jg.kuerzel d = 0
    · simpa [buildOberstufe, h] using ih sort
    · obtain ⟨ih1, ih2, ih3⟩ := ih (sort + 1)
      simp [buildOberstufe, h, capstonePayload, ih1, ih2, ih3, List.replicate_succ]

/-- C3 counterexample: a capstone grade level with a configured prefix
produces the bare code `"EF"`, not `praefix ++ code = "VEF"` as the claim
states. -/
theorem capstone_prefix_counterexample :
    ((run_payloads ⟨100, none⟩ ⟨"GY", 1⟩
        [⟨"Gymnasium", ["GY"], [⟨"EF", "Einfuehrungsphase", "V"⟩]⟩]
        [⟨7, "EF"⟩]).map (fun p => p.kuerzel) = ["EF"])
    ∧ (JgTemplate.praefix ⟨"EF", "Einfuehrungsphase", "V"⟩ ≠ "")
    ∧ ((run_payloads ⟨100, none⟩ ⟨"GY", 1⟩
        [⟨"Gymnasium", ["GY"], [⟨"EF", "Einfuehrungsphase", "V"⟩]⟩]
        [⟨7, "EF"⟩]).map (fun p => p.kuerzel)
      ≠ [JgTemplate.praefix ⟨"EF", "Einfuehrungsphase", "V"⟩ ++ "EF"]) :=
  ⟨by decide, by decide, by decide⟩

/-- C7. For a BK/SB school form (with valid master data) the run returns the
zero-created/zero-failed result `(0, 0)` and issues no creation call; and no
run whatsoever produces a payload carrying the vocational attribute block. -/
theorem bk_sb_skip (cfg : Config) (stamm : Stammdaten) (struktur : List Group)
    (dir : List JgEntry) (post : Payload → Option (Option Nat))
    (hbk : stamm.schulform ∈ (["BK", "SB"] : List String))
    (hid : stamm.idSchuljahresabschnitt ≠ 0) :
    populate_classes cfg stamm struktur dir post = (0, 0)
    ∧ populate_classes_payloads cfg stamm struktur dir = .skipBkSb
    ∧ ∀ (cfg' : Config) (stamm' : Stammdaten) (struktur' : List Group)
        (dir' : List JgEntry),
        (run_payloads cfg' stamm' struktur' dir').all
          (fun p => !isBerufsbildendAttr p.attrs) = true := by
  have hne : stamm.schulform ≠ "" := by
    intro he
    rw [he] at hbk
    simp at hbk
  have hpp : populate_classes_payloads cfg stamm struktur dir = .skipBkSb := by
    unfold populate_classes_payloads
    rw [if_neg hne, if_neg hid, if_pos hbk]
  refine ⟨?_, hpp, ?_⟩
  · unfold populate_classes
    rw [hpp]
  · intro cfg' stamm' struktur' dir'
    rw [List.all_eq_true]
    intro p hp
    unfold run_payloads at hp
    cases hO : populate_classes_payloads cfg' stamm' struktur' dir' with
    | err => rw [hO] at hp; simp at hp
    | skipBkSb => rw [hO] at hp; simp at hp
    | run ps =>
      rw [hO] at hp
      dsimp only at hp
      obtain ⟨group, _, hbk', hps⟩ := populate_run_inversion _ _ _ _ _ hO
      subst hps
      have ha := run_branch_attrs cfg' stamm' group dir' p hp
      rw [ha]
      unfold mkAttrs
      rw [if_neg hbk']
      rfl

/-- Fixed failing POST oracle used by witnesses. -/
def postNone : Payload → Option (Option Nat) := fun _ => none

/-- Witness for C7 with school form "BK". -/
theorem bk_sb_skip_witness :
    (Stammdaten.schulform ⟨"BK", 1⟩ ∈ (["BK", "SB"] : List String)
      ∧ Stammdaten.idSchuljahresabschnitt ⟨"BK", 1⟩ ≠ 0)
    ∧ (populate_classes ⟨200, none⟩ ⟨"BK", 1⟩ [] [] postNone = (0, 0)
       ∧ populate_classes_payloads ⟨200, none⟩ ⟨"BK", 1⟩ [] [] = .skipBkSb
       ∧ ∀ (cfg' : Config) (stamm' : Stammdaten) (struktur' : List Group)
           (dir' : List JgEntry),
           (run_payloads cfg' stamm' struktur' dir').all
             (fun p => !isBerufsbildendAttr p.attrs) = true) :=
  ⟨⟨by decide, by decide⟩,
    bk_sb_skip ⟨200, none⟩ ⟨"BK", 1⟩ [] [] postNone (by decide) (by decide)⟩

/-- Modelled from the spec: the class-size target recognized from the input
configuration, `targetClassSize` with default 25 (spec §4.4/§6).  Used only
to compare the claimed divisor with the one the code uses. -/
def targetClassSize_spec (cfg : Config) : Nat :=
  cfg.targetClassSize.getD 25

/-- C8 counterexample: for a configuration supplying `targetClassSize = 50`
and a one-grade-level template with 200 students, the claim's formula yields
4 classes per grade while the code — whose divisor is the constant
`classes_per_student = 25` and which never reads `targetClassSize` —
computes 8. -/
theorem class_size_divisor_counterexample :
    targetClassSize_spec ⟨200, some 50⟩ = 50
    ∧ classes_per_jahrgang 200 1 (targetClassSize_spec ⟨200, some 50⟩) = 4
    ∧ classes_per_jahrgang 200 1 classes_per_student = 8
    ∧ (4 : Nat) ≠ 8 := by
  refine ⟨rfl, ?_, ?_, by decide⟩
  · rw [classes_per_jahrgang_eq_natDiv]
    decide
  · rw [classes_per_jahrgang_eq_natDiv]
    decide

/-- C8 (amended). The planner's class-size divisor is the hard-coded
constant `classes_per_student = 25`; no `targetClassSize` configuration
value is read, so the generated payloads are identical for any two values of
that key. -/
theorem class_size_divisor_amended (a : Nat) (t t' : Option Nat)
    (stamm : Stammdaten) (struktur : List Group) (dir : List JgEntry) :
    classes_per_student = 25
    ∧ populate_classes_payloads ⟨a, t⟩ stamm struktur dir
        = populate_classes_payloads ⟨a, t'⟩ stamm struktur dir :=
  ⟨rfl, rfl⟩

/-! ## Leadership assignment: `assign_class_leaders` (source lines 481-624)

`random.sample(pool, k)` draws `k` distinct positions of `pool`; it is
modelled by an oracle `pick : step → pool → k → selection` constrained by
`PickSpec`: the selection has length `k` and is a sub-permutation of the
pool (so with a duplicate-free pool it consists of `k` distinct elements).
The per-class PATCH outcome is an oracle `patchOK`. -/

/-- Assigner state: the `teacher_assignments` map, the success/failure
counters, the PATCH calls issued, and the number of pool-exhaustion
warnings printed (source line 563). -/
structure AssignState where
  load : Nat → Nat
  assigned : Nat
  failed : Nat
  patches : List (Nat × List Nat)
  warnings : Nat

/-- `teacher_assignments[tid] += 1` for a single id. -/
def bump (load : Nat → Nat) (tid : Nat) : Nat → Nat :=
  fun x => if x = tid then load x + 1 else load x

/-- The `for tid in selected: teacher_assignments[tid] += 1` loop
(source lines 574-575). -/
def bumpAll (load : Nat → Nat) (sel : List Nat) : Nat → Nat :=
  sel.foldl bump load

/-- `random.sample` semantics: right length, elements drawn (without
positional repetition) from the pool. -/
def SampleOK (pool : List Nat) (k : Nat) (out : List Nat) : Prop :=
  out.length = k ∧ List.Subperm out pool

def PickSpec (pick : Nat → List Nat → Nat → List Nat) : Prop :=
  ∀ i pool k, k ≤ pool.length → SampleOK pool k (pick i pool k)

/-- Source line 559: `available`, the staff with fewer than 2 assignments. -/
def availableOf (teacher_ids : List Nat) (load : Nat → Nat) : List Nat :=
  teacher_ids.filter (fun tid => load tid < 2)

/-- Source lines 561-564: widen the pool to all staff when fewer than 2
remain available. -/
def poolOf (teacher_ids : List Nat) (load : Nat → Nat) : List Nat :=
  if (availableOf teacher_ids load).length < 2 then teacher_ids
  else availableOf teacher_ids load

/-- Source lines 566-571: `random.sample(pool, 2)` when the pool has at
least 2 members, else the remaining pool plus a sample from the full
roster. -/
def selectedOf (teacher_ids : List Nat) (pick : Nat → List Nat → Nat → List Nat)
    (i : Nat) (load : Nat → Nat) : List Nat :=
  if 2 ≤ (poolOf teacher_ids load).length then pick i (poolOf teacher_ids load) 2
  else poolOf teacher_ids load
    ++ pick i teacher_ids (2 - (poolOf teacher_ids load).length)

/-- One iteration of the class loop (source lines 549-605): skip entries
without id; build the `< 2`-load pool; widen with a warning when it has
fewer than 2 members; select two leaders; bump the load map; issue the
PATCH and count its outcome. -/
def assignStep (teacher_ids : List Nat) (pick : Nat → List Nat → Nat → List Nat)
    (patchOK : Nat → Bool) (i : Nat) (st : AssignState) (klasse : CacheEntry) :
    AssignState :=
  if klasse.id = 0 then
    { st with failed := st.failed + 1 }
  else
    { load := bumpAll st.load (selectedOf teacher_ids pick i st.load)
      assigned := if patchOK i then st.assigned + 1 else st.assigned
      failed := if patchOK i then st.failed else st.failed + 1
      patches := st.patches ++ [(klasse.id, selectedOf teacher_ids pick i st.load)]
      warnings :=
        if (availableOf teacher_ids st.load).length < 2 then st.warnings + 1
        else st.warnings }

def assignLoop (teacher_ids : List Nat) (pick : Nat → List Nat → Nat → List Nat)
    (patchOK : Nat → Bool) : List CacheEntry → Nat → AssignState → AssignState
  | [], _, st => st
  | k :: rest, i, st =>
    assignLoop teacher_ids pick patchOK rest (i + 1)
      (assignStep teacher_ids pick patchOK i st k)

/-- `teacher_assignments = {t['id']: 0 for t in teachers}` (source line 539)
plus zeroed counters. -/
def initAssignState : AssignState :=
  { load := fun _ => 0, assigned := 0, failed := 0, patches := [], warnings := 0 }

/-- Inputs of the assignment phase: whether `.klassen_cache.json` exists,
its contents, and the staff-roster fetch result (`none` = fetch error). -/
structure LeaderInputs where
  cacheExists : Bool
  cacheClasses : List CacheEntry
  teachersFetch : Option (List Nat)

/-- Observable outcome of `assign_class_leaders`: the returned counts,
whether the staff roster was fetched, the PATCH calls issued, and the
warnings printed. -/
structure LeaderResult where
  assigned : Nat
  failed : Nat
  fetchedTeachers : Bool
  patches : List (Nat × List Nat)
  warnings : Nat
deriving DecidableEq, Repr

/-- `assign_class_leaders` (source lines 481-624): missing cache file →
`(0, 1)` before the roster is fetched; roster fetch error → `(0, 1)`; empty
class list → `(0, 0)`; empty roster → `(0, 1)`; otherwise the class loop. -/
def assign_class_leaders (inp : LeaderInputs)
    (pick : Nat → List Nat → Nat → List Nat) (patchOK : Nat → Bool) :
    LeaderResult :=
  if !inp.cacheExists then
    { assigned := 0, failed := 1, fetchedTeachers := false, patches := [], warnings := 0 }
  else
    match inp.teachersFetch with
    | none =>
      { assigned := 0, failed := 1, fetchedTeachers := true, patches := [], warnings := 0 }
    | some teachers =>
      if inp.cacheClasses.isEmpty then
        { assigned := 0, failed := 0, fetchedTeachers := true, patches := [], warnings := 0 }
      else if teachers.isEmpty then
        { assigned := 0, failed := 1, fetchedTeachers := true, patches := [], warnings := 0 }
      else
        let st := assignLoop teachers pick patchOK inp.cacheClasses 0 initAssignState
        { assigned := st.assigned, failed := st.failed, fetchedTeachers := true,
          patches := st.patches, warnings := st.warnings }

/-- C10. If the local cohort cache file does not exist, the assignment phase
returns `(0 assigned, 1 failed)` immediately: the staff roster is not
fetched and no leadership-update call is issued. -/
theorem cache_missing_aborts (inp : LeaderInputs)
    (pick : Nat → List Nat → Nat → List Nat) (patchOK : Nat → Bool)
    (h : inp.cacheExists = false) :
    assign_class_leaders inp pick patchOK
      = { assigned := 0, failed := 1, fetchedTeachers := false,
          patches := [], warnings := 0 } := by
  unfold assign_class_leaders
  rw [h]
  rfl

/-- Selection oracle used by witnesses: the first `k` pool members. -/
def pickTake : Nat → List Nat → Nat → List Nat := fun _ pool k => pool.take k

/-- Always-successful PATCH oracle used by witnesses. -/
def patchTrue : Nat → Bool := fun _ => true

theorem pickTake_spec : PickSpec pickTake := by
  intro i pool k hk
  constructor
  · simp [pickTake]
    omega
  · exact (List.take_sublist k pool).subperm

/-- Witness for C10 at a concrete input with no cache file. -/
theorem cache_missing_aborts_witness :
    (LeaderInputs.cacheExists ⟨false, [], none⟩ = false)
    ∧ assign_class_leaders ⟨false, [], none⟩ pickTake patchTrue
        = { assigned := 0, failed := 1, fetchedTeachers := false,
            patches := [], warnings := 0 } :=
  ⟨rfl, cache_missing_aborts ⟨false, [], none⟩ pickTake patchTrue rfl⟩

/-! ## Load-map accounting -/

theorem subperm_nodup {l1 l2 : List Nat} (h : List.Subperm l1 l2)
    (h2 : l2.Nodup) : l1.Nodup := by
  obtain ⟨l, hperm, hsub⟩ := h
  exact (hsub.nodup h2).perm hperm

theorem bumpAll_apply (sel : List Nat) : ∀ (load : Nat → Nat) (x : Nat),
    bumpAll load sel x = load x + sel.count x := by
  induction sel with
  | nil => intro load x; simp [bumpAll]
  | cons a rest ih =>
    intro load x
    show bumpAll (bump load a) rest x = load x + (a :: rest).count x
    rw [ih, List.count_cons]
    by_cases hx : x = a
    · subst hx
      simp [bump]
      omega
    · have hax : ¬ (a == x) = true := by simp [beq_iff_eq]; exact fun h => hx h.symm
      simp [bump, hx, hax]

/-- Total assignment load over the (duplicate-free) roster. -/
def totalLoad (teacher_ids : List Nat) (load : Nat → Nat) : Nat :=
  (teacher_ids.map load).sum

theorem totalLoad_bump (teacher_ids : List Nat) (hnd : teacher_ids.Nodup)
    (load : Nat → Nat) (a : Nat) (ha : a ∈ teacher_ids) :
    totalLoad teacher_ids (bump load a) = totalLoad teacher_ids load + 1 := by
  induction teacher_ids with
  | nil => cases ha
  | cons t rest ih =>
    rw [List.nodup_cons] at hnd
    rcases List.mem_cons.mp ha with rfl | hmem
    · have hmap : rest.map (bump load a) = rest.map load := by
        apply List.map_congr_left
        intro x hx
        have hxa : ¬ x = a := fun h => hnd.1 (h ▸ hx)
        simp [bump, hxa]
      show ((a :: rest).map (bump load a)).sum = ((a :: rest).map load).sum + 1
      rw [List.map_cons, List.map_cons, hmap, List.sum_cons, List.sum_cons]
      have hb : bump load a a = load a + 1 := by simp [bump]
      rw [hb]
      omega
    · have hta : ¬ t = a := fun h => hnd.1 (h ▸ hmem)
      have ihr := ih hnd.2 hmem
      show ((t :: rest).map (bump load a)).sum = ((t :: rest).map load).sum + 1
      rw [List.map_cons, List.map_cons, List.sum_cons, List.sum_cons]
      have hb : bump load a t = load t := by simp [bump, hta]
      rw [hb]
      rw [totalLoad, totalLoad] at ihr
      omega

theorem totalLoad_bumpAll (teacher_ids : List Nat) (hnd : teacher_ids.Nodup)
    (sel : List Nat) : ∀ (load : Nat → Nat), (∀ x ∈ sel, x ∈ teacher_ids) →
    totalLoad teacher_ids (bumpAll load sel)
      = totalLoad teacher_ids load + sel.length := by
  induction sel with
  | nil => intro load _; simp [bumpAll]
  | cons a rest ih =>
    intro load hsub
    show totalLoad teacher_ids (bumpAll (bump load a) rest) = _
    rw [ih (bump load a) (fun x hx => hsub x (List.mem_cons_of_mem a hx)),
      totalLoad_bump teacher_ids hnd load a (hsub a (List.mem_cons_self a rest))]
    simp
    omega

theorem filter_split_length (l : List Nat) (p : Nat → Bool) :
    (l.filter p).length + (l.filter (fun x => !p x)).length = l.length := by
  induction l with
  | nil => rfl
  | cons a rest ih =>
    cases hb : p a <;> simp [List.filter_cons, hb] <;> omega

theorem totalLoad_lower (teacher_ids : List Nat) (load : Nat → Nat) :
    2 * (teacher_ids.filter (fun t => !(decide (load t < 2)))).length
      ≤ totalLoad teacher_ids load := by
  induction teacher_ids with
  | nil => simp [totalLoad]
  | cons t rest ih =>
    rw [totalLoad, List.map_cons, List.sum_cons]
    rw [totalLoad] at ih
    cases hb : decide (load t < 2)
    · have h2 : 2 ≤ load t := by
        have := of_decide_eq_false hb
        omega
      have hf : (t :: rest).filter (fun t => !(decide (load t < 2)))
          = t :: rest.filter (fun t => !(decide (load t < 2))) := by
        simp [List.filter_cons, hb]
      rw [hf, List.length_cons]
      omega
    · have hf : (t :: rest).filter (fun t => !(decide (load t < 2)))
        = rest.filter (fun t => !(decide (load t < 2))) := by
        simp [List.filter_cons, hb]
      rw [hf]
      omega

/-! ## Facts about one selection -/

theorem selectedOf_facts (teacher_ids : List Nat)
    (pick : Nat → List Nat → Nat → List Nat) (i : Nat) (load : Nat → Nat)
    (hnd : teacher_ids.Nodup) (hne : teacher_ids ≠ [])
    (hpick : PickSpec pick) :
    (selectedOf teacher_ids pick i load).length = 2
    ∧ (∀ x ∈ selectedOf teacher_ids pick i load, x ∈ teacher_ids)
    ∧ (2 ≤ teacher_ids.length → (selectedOf teacher_ids pick i load).Nodup)
    ∧ (¬ (availableOf teacher_ids load).length < 2 →
        (selectedOf teacher_ids pick i load).Nodup
        ∧ ∀ x ∈ selectedOf teacher_ids pick i load, load x < 2) := by
  unfold selectedOf poolOf
  by_cases hw : (availableOf teacher_ids load).length < 2
  · rw [if_pos hw]
    by_cases h2p : 2 ≤ teacher_ids.length
    · rw [if_pos h2p]
      obtain ⟨hlen, hsub⟩ := hpick i teacher_ids 2 h2p
      exact ⟨hlen, fun x hx => hsub.subset hx, fun _ => subperm_nodup hsub hnd,
        fun hc => absurd hw hc⟩
    · rw [if_neg h2p]
      have hpos : 0 < teacher_ids.length := List.length_pos.mpr hne
      have h1 : teacher_ids.length = 1 := by omega
      obtain ⟨hlen1, hsub1⟩ := hpick i teacher_ids (2 - teacher_ids.length) (by omega)
      refine ⟨?_, ?_, fun h2t => absurd h2t h2p, fun hc => absurd hw hc⟩
      · rw [List.length_append, hlen1]
        omega
      · intro x hx
        rcases List.mem_append.mp hx with hx | hx
        · exact hx
        · exact hsub1.subset hx
  · rw [if_neg hw]
    have h2a : 2 ≤ (availableOf teacher_ids load).length := by omega
    rw [if_pos h2a]
    obtain ⟨hlen, hsub⟩ := hpick i _ 2 h2a
    have hnda : (availableOf teacher_ids load).Nodup := hnd.filter _
    have hmem : ∀ x ∈ availableOf teacher_ids load, x ∈ teacher_ids ∧ load x < 2 := by
      intro x hx
      rw [availableOf, List.mem_filter] at hx
      exact ⟨hx.1, by simpa using hx.2⟩
    exact ⟨hlen, fun x hx => (hmem x (hsub.subset hx)).1,
      fun _ => subperm_nodup hsub hnda,
      fun _ => ⟨subperm_nodup hsub hnda, fun x hx => (hmem x (hsub.subset hx)).2⟩⟩

/-! ## The assigner invariant -/

/-- Invariant carried through the class loop: loads stay `≤ 2` while no
widening warning has been printed; the total load equals at most twice the
number of PATCH calls issued; and once a warning was printed the roster size
is bounded by the number of PATCH calls. -/
def LoadInv (teacher_ids : List Nat) (st : AssignState) : Prop :=
  (st.warnings = 0 → ∀ tid, st.load tid ≤ 2)
  ∧ totalLoad teacher_ids st.load ≤ 2 * st.patches.length
  ∧ (0 < st.warnings → teacher_ids.length ≤ st.patches.length)

theorem assignStep_facts (teacher_ids : List Nat)
    (pick : Nat → List Nat → Nat → List Nat) (patchOK : Nat → Bool)
    (hnd : teacher_ids.Nodup) (hne : teacher_ids ≠ []) (hpick : PickSpec pick)
    (i : Nat) (st : AssignState) (k : CacheEntry) :
    (LoadInv teacher_ids st
      → LoadInv teacher_ids (assignStep teacher_ids pick patchOK i st k))
    ∧ (assignStep teacher_ids pick patchOK i st k).patches.length
        ≤ st.patches.length + 1
    ∧ (∀ pr ∈ (assignStep teacher_ids pick patchOK i st k).patches,
        pr ∈ st.patches
        ∨ (pr.2.length = 2 ∧ (2 ≤ teacher_ids.length → pr.2.Nodup))) := by
  by_cases hid : k.id = 0
  · have he : assignStep teacher_ids pick patchOK i st k
        = { st with failed := st.failed + 1 } := by
      simp [assignStep, hid]
    rw [he]
    exact ⟨fun hinv => hinv, by simp, fun pr hpr => Or.inl hpr⟩
  · obtain ⟨hsel_len, hsel_sub, hsel_nodup2, hsel_nowide⟩ :=
      selectedOf_facts teacher_ids pick i st.load hnd hne hpick
    have he : assignStep teacher_ids pick patchOK i st k =
        { load := bumpAll st.load (selectedOf teacher_ids pick i st.load)
          assigned := if patchOK i then st.assigned + 1 else st.assigned
          failed := if patchOK i then st.failed else st.failed + 1
          patches := st.patches ++ [(k.id, selectedOf teacher_ids pick i st.load)]
          warnings :=
            if (availableOf teacher_ids st.load).length < 2 then st.warnings + 1
            else st.warnings } := by
      simp [assignStep, hid]
    rw [he]
    refine ⟨fun hinv => ?_, by simp, ?_⟩
    · obtain ⟨inv1, inv2, inv3⟩ := hinv
      unfold LoadInv
      dsimp only
      refine ⟨?_, ?_, ?_⟩
      · intro hw0 tid
        by_cases hwide : (availableOf teacher_ids st.load).length < 2
        · rw [if_pos hwide] at hw0
          omega
        · rw [if_neg hwide] at hw0
          obtain ⟨hnodup, hlt⟩ := hsel_nowide hwide
          show bumpAll st.load (selectedOf teacher_ids pick i st.load) tid ≤ 2
          rw [bumpAll_apply]
          by_cases htid : tid ∈ selectedOf teacher_ids pick i st.load
          · have hc1 : (selectedOf teacher_ids pick i st.load).count tid ≤ 1 :=
              List.nodup_iff_count_le_one.mp hnodup tid
            have := hlt tid htid
            omega
          · rw [List.count_eq_zero.mpr htid]
            have := inv1 hw0 tid
            omega
      · show totalLoad teacher_ids
            (bumpAll st.load (selectedOf teacher_ids pick i st.load)) ≤ _
        rw [totalLoad_bumpAll teacher_ids hnd (selectedOf teacher_ids pick i st.load)
          st.load hsel_sub, hsel_len, List.length_append]
        simp
        omega
      · intro hwpos
        show teacher_ids.length
            ≤ (st.patches ++ [(k.id, selectedOf teacher_ids pick i st.load)]).length
        rw [List.length_append]
        by_cases hwide : (availableOf teacher_ids st.load).length < 2
        · have hsplit :=
            filter_split_length teacher_ids (fun tid => decide (st.load tid < 2))
          have hlow := totalLoad_lower teacher_ids st.load
          rw [availableOf] at hwide
          simp only [List.length_singleton]
          omega
        · rw [if_neg hwide] at hwpos
          have := inv3 hwpos
          simp only [List.length_singleton]
          omega
    · intro pr hpr
      rcases List.mem_append.mp hpr with hpr | hpr
      · exact Or.inl hpr
      · right
        have hpr2 : pr = (k.id, selectedOf teacher_ids pick i st.load) := by
          simpa using hpr
        subst hpr2
        exact ⟨hsel_len, fun h2 => hsel_nodup2 h2⟩

theorem assignLoop_facts (teacher_ids : List Nat)
    (pick : Nat → List Nat → Nat → List Nat) (patchOK : Nat → Bool)
    (hnd : teacher_ids.Nodup) (hne : teacher_ids ≠ []) (hpick : PickSpec pick)
    (classes : List CacheEntry) : ∀ (i : Nat) (st : AssignState),
    (LoadInv teacher_ids st
      → LoadInv teacher_ids (assignLoop teacher_ids pick patchOK classes i st))
    ∧ (assignLoop teacher_ids pick patchOK classes i st).patches.length
        ≤ st.patches.length + classes.length
    ∧ (∀ pr ∈ (assignLoop teacher_ids pick patchOK classes i st).patches,
        pr ∈ st.patches
        ∨ (pr.2.length = 2 ∧ (2 ≤ teacher_ids.length → pr.2.Nodup))) := by
  induction classes with
  | nil =>
    intro i st
    exact ⟨fun h => h, by simp [assignLoop], fun pr hpr => Or.inl hpr⟩
  | cons c rest ih =>
    intro i st
    obtain ⟨s1, s2, s3⟩ := assignStep_facts teacher_ids pick patchOK hnd hne hpick i st c
    obtain ⟨l1, l2, l3⟩ := ih (i + 1) (assignStep teacher_ids pick patchOK i st c)
    refine ⟨fun hinv => l1 (s1 hinv), ?_, ?_⟩
    · show (assignLoop teacher_ids pick patchOK rest (i + 1)
          (assignStep teacher_ids pick patchOK i st c)).patches.length ≤ _
      rw [List.length_cons]
      omega
    · intro pr hpr
      rcases l3 pr hpr with h | h
      · rcases s3 pr h with h' | h'
        · exact Or.inl h'
        · exact Or.inr h'
      · exact Or.inr h

/-- C4. For every duplicate-free, non-empty staff roster, every class list
and every sampling oracle respecting `random.sample` semantics: a staff
member's load can exceed 2 only if a pool-exhaustion warning was printed
(the `< 2`-load pool had fewer than 2 members and was widened to the full
roster), and a warning implies `staffCount < 2 × cohortCount`. -/
theorem leadership_load_invariant (teacher_ids : List Nat)
    (classes : List CacheEntry) (pick : Nat → List Nat → Nat → List Nat)
    (patchOK : Nat → Bool) (hnd : teacher_ids.Nodup) (hne : teacher_ids ≠ [])
    (hpick : PickSpec pick) :
    (∀ tid,
      2 < (assignLoop teacher_ids pick patchOK classes 0 initAssignState).load tid
      → 0 < (assignLoop teacher_ids pick patchOK classes 0 initAssignState).warnings)
    ∧ (0 < (assignLoop teacher_ids pick patchOK classes 0 initAssignState).warnings
        → teacher_ids.length < 2 * classes.length) := by
  have hinv0 : LoadInv teacher_ids initAssignState := by
    refine ⟨fun _ tid => by simp [initAssignState], ?_, ?_⟩
    · simp [totalLoad, initAssignState]
    · intro h
      simp [initAssignState] at h
  obtain ⟨l1, l2, _⟩ :=
    assignLoop_facts teacher_ids pick patchOK hnd hne hpick classes 0 initAssignState
  obtain ⟨f1, _, f3⟩ := l1 hinv0
  constructor
  · intro tid hgt
    by_contra hw
    have hw0 : (assignLoop teacher_ids pick patchOK classes 0 initAssignState).warnings
        = 0 := by omega
    have := f1 hw0 tid
    omega
  · intro hwpos
    have h3 := f3 hwpos
    have hl2 : (assignLoop teacher_ids pick patchOK classes 0 initAssignState).patches.length
        ≤ classes.length := by
      simpa [initAssignState] using l2
    cases hc : classes with
    | nil =>
      rw [hc] at hwpos
      simp [assignLoop, initAssignState] at hwpos
    | cons c rest =>
      have hb : classes.length = rest.length + 1 := by
        rw [hc]
        exact List.length_cons c rest
      have hi : (c :: rest).length = rest.length + 1 := List.length_cons c rest
      have ha : initAssignState.patches.length = 0 := rfl
      omega

/-- Witness for C4: roster `[1, 2]`, one cached class, take-first sampling. -/
theorem leadership_load_invariant_witness :
    (([1, 2] : List Nat).Nodup ∧ ([1, 2] : List Nat) ≠ [] ∧ PickSpec pickTake)
    ∧ ((∀ tid,
          2 < (assignLoop [1, 2] pickTake patchTrue [⟨10, "05a"⟩] 0
                initAssignState).load tid
          → 0 < (assignLoop [1, 2] pickTake patchTrue [⟨10, "05a"⟩] 0
                initAssignState).warnings)
       ∧ (0 < (assignLoop [1, 2] pickTake patchTrue [⟨10, "05a"⟩] 0
                initAssignState).warnings
           → ([1, 2] : List Nat).length
              < 2 * ([(⟨10, "05a"⟩ : CacheEntry)] : List CacheEntry).length)) :=
  ⟨⟨by decide, by decide, pickTake_spec⟩,
    leadership_load_invariant [1, 2] [⟨10, "05a"⟩] pickTake patchTrue
      (by decide) (by decide) pickTake_spec⟩

/-- C5. With a duplicate-free roster of at least 2 staff members and
`random.sample` semantics, every leadership assignment issued consists of
exactly 2 distinct staff ids (the with-replacement fallback is unreachable). -/
theorem leadership_two_distinct (teacher_ids : List Nat)
    (classes : List CacheEntry) (pick : Nat → List Nat → Nat → List Nat)
    (patchOK : Nat → Bool) (hnd : teacher_ids.Nodup)
    (h2 : 2 ≤ teacher_ids.length) (hpick : PickSpec pick) :
    ∀ pr ∈ (assignLoop teacher_ids pick patchOK classes 0 initAssignState).patches,
      pr.2.length = 2 ∧ pr.2.Nodup := by
  have hne : teacher_ids ≠ [] := by
    intro h
    rw [h] at h2
    simp at h2
  obtain ⟨_, _, l3⟩ :=
    assignLoop_facts teacher_ids pick patchOK hnd hne hpick classes 0 initAssignState
  intro pr hpr
  rcases l3 pr hpr with h | h
  · simp [initAssignState] at h
  · exact ⟨h.1, h.2 h2⟩

/-- Witness for C5: roster `[1, 2]`, one cached class, take-first sampling. -/
theorem leadership_two_distinct_witness :
    (([1, 2] : List Nat).Nodup ∧ 2 ≤ ([1, 2] : List Nat).length ∧ PickSpec pickTake)
    ∧ (∀ pr ∈ (assignLoop [1, 2] pickTake patchTrue
          [⟨11, "06a"⟩] 0 initAssignState).patches,
        pr.2.length = 2 ∧ pr.2.Nodup) :=
  ⟨⟨by decide, by decide, pickTake_spec⟩,
    leadership_two_distinct [1, 2] [⟨11, "06a"⟩] pickTake patchTrue
      (by decide) (by decide) pickTake_spec⟩

end MockFactory
